import Mathlib

/-
Verification of the JSON core of an embedded SQL engine
(src/core/json/mod.rs): a JSON value model, the SQL-value bridge
(get_json / get_json_value), the array builder (json_array), the length
classifier (json_array_length) and the path extractor (json_extract /
json_extract_single).

The modules de, ser, json_path, jsonb and types are collaborators that are
not part of the verified file; they enter the development either as fields
of an explicit interface record (Ext) that the theorems quantify over, or
as definitions modelled from the specification where a claim depends on
their contract.

Rust's fallible calls return Result; panics (todo, unreachable, index out
of bounds, unwrap on Err) are modelled by a third outcome of the result
type, since a panic propagates out of every caller.
-/

set_option autoImplicit false

namespace LimboJson

/-- An IEEE-754 double precision value, kept as its raw 64-bit pattern.
The payload is opaque to this module: the code only moves floats around
and hands them to external formatters. -/
structure F64 where
  bits : Nat
  deriving DecidableEq, Repr

/-- The JSON value model of mod.rs: enum Val. Objects keep insertion
order, so the IndexMap is embedded as an ordered association list with
unique keys. -/
inductive Val where
  | Null
  | Bool (b : Bool)
  | Integer (i : Int)
  | Float (f : F64)
  | String (s : String)
  | Array (xs : List Val)
  | Object (m : List (String × Val))
  deriving Repr

/-- types::TextSubtype (module types, interface only). -/
inductive TextSubtype where
  | Text
  | Json
  deriving DecidableEq, Repr

/-- types::Text: a native text value together with its subtype tag. -/
structure Text where
  value : String
  subtype : TextSubtype
  deriving DecidableEq, Repr

/-- Text::json(s): a text value carrying the Json subtype tag. -/
def Text.json (s : String) : Text := ⟨s, TextSubtype.Json⟩

/-- types::OwnedValue, the native SQL value (module types, interface
only): the variants consumed by mod.rs, plus Other for every further
SQL kind, carried together with its stringified form ("other native
scalars are stringified" per the interface contract). -/
inductive OwnedValue where
  | Null
  | Integer (i : Int)
  | Float (f : F64)
  | Text (t : LimboJson.Text)
  | Blob (b : List Nat)
  | Other (disp : String)
  deriving DecidableEq, Repr

/-- Embeds the "if let OwnedValue::Null = value" test of json_extract. -/
def OwnedValue.isNullVal : OwnedValue → Bool
  | .Null => true
  | _ => false

def OwnedValue.isBlobVal : OwnedValue → Bool
  | .Blob _ => true
  | _ => false

/-- The two error kinds of the host engine consumed by mod.rs:
bail_parse_error and bail_constraint_error. -/
inductive JsonError where
  | ParseError (msg : String)
  | ConstraintError (msg : String)
  deriving DecidableEq, Repr

/-- The outcome of a Rust call: Ok, Err, or a panic (todo, unreachable,
out-of-bounds indexing, unwrap on Err). A panic propagates through every
caller, like the err case of Result with the question-mark operator. -/
inductive RRes (α : Type) where
  | ok (a : α)
  | err (e : JsonError)
  | panicked (msg : String)
  deriving DecidableEq, Repr

/-- Sequencing of fallible Rust calls: the question-mark operator, with
panics propagated. -/
def RRes.bind {α β : Type} (x : RRes α) (f : α → RRes β) : RRes β :=
  match x with
  | .ok a => f a
  | .err e => .err e
  | .panicked m => .panicked m

/-- Rust's .unwrap() on a Result: the Ok payload, or a panic. -/
def unwrapE {α : Type} : Except JsonError α → RRes α
  | .ok a => .ok a
  | .error _ => .panicked "called unwrap on an Err value"

/-- json_path::PathElement. The array locator index is an i32 in the
source; it is embedded as an unbounded integer, and the theorems carry
the i32 range bounds where the value of the index matters. -/
inductive PathElement where
  | Root
  | Key (k : String)
  | ArrayLocator (i : Int)
  deriving DecidableEq, Repr

/-- json_path::JsonPath: the compiled path, an ordered element list. -/
structure JsonPath where
  elements : List PathElement
  deriving DecidableEq, Repr

/-- The external collaborators of mod.rs, at their interfaces:
the text decoder de::from_str, the path compiler json_path::json_path,
the binary codec jsonb::from_slice composed with to_string on its
decoded value (none embeds the Err case), the float formatting of the
serializer, the Display rendering of f64, and the Display rendering of
native values. The theorems quantify over this record. -/
structure Ext where
  fromStr : String → Except JsonError Val
  jsonPath : String → Except JsonError JsonPath
  jsonbDecode : List Nat → Option String
  fmtFloat : F64 → String
  dispFloat : F64 → String
  dispOwned : OwnedValue → String

/-- Modelled from the spec: one character of a canonical JSON string
literal (module ser is not under src/); quote and backslash are escaped. -/
def escChar (c : Char) : String :=
  if c = '"' then "\\\""
  else if c = '\\' then "\\\\"
  else String.singleton c

/-- Modelled from the spec: a canonical JSON string literal, double
quoted (module ser is not under src/). -/
def encJString (s : String) : String :=
  "\"" ++ String.join (s.toList.map escChar) ++ "\""

mutual

/-- Modelled from the spec: the canonical JSON encoding of a Val
(module ser is not under src/; the spec states the encoder emits strict
canonical JSON and never fails). Float rendering is delegated to the
external formatter. -/
def encodeVal (fmtF : F64 → String) : Val → String
  | .Null => "null"
  | .Bool b => if b then "true" else "false"
  | .Integer i => toString i
  | .Float f => fmtF f
  | .String s => encJString s
  | .Array xs => "[" ++ encodeItems fmtF xs ++ "]"
  | .Object m => "\x7b" ++ encodeFields fmtF m ++ "\x7d"

/-- Modelled from the spec: comma-separated encodings of array items. -/
def encodeItems (fmtF : F64 → String) : List Val → String
  | [] => ""
  | [v] => encodeVal fmtF v
  | v :: rest => encodeVal fmtF v ++ "," ++ encodeItems fmtF rest

/-- Modelled from the spec: comma-separated key:value encodings of
object fields, in insertion order. -/
def encodeFields (fmtF : F64 → String) : List (String × Val) → String
  | [] => ""
  | [(k, v)] => encJString k ++ ":" ++ encodeVal fmtF v
  | (k, v) :: rest =>
      encJString k ++ ":" ++ encodeVal fmtF v ++ "," ++ encodeFields fmtF rest

end

/-- Modelled from the spec: ser's to_string on a Val; encoding a
well-formed in-memory Value never fails. -/
def serToString (ext : Ext) (v : Val) : Except JsonError String :=
  .ok (encodeVal ext.fmtFloat v)

/-- Modelled from the spec: ser's to_string on a Rust String, producing
a JSON string literal; never fails. -/
def serToStringStr (s : String) : Except JsonError String :=
  .ok (encJString s)

/-- Modelled from the spec: ser's to_string on an i64; never fails. -/
def serToStringInt (i : Int) : Except JsonError String :=
  .ok (toString i)

/-- Modelled from the spec: ser's to_string on an f64, delegated to the
external float formatter; never fails. -/
def serToStringFloat (ext : Ext) (f : F64) : Except JsonError String :=
  .ok (ext.fmtFloat f)

/-- Modelled from the spec: the Debug rendering of a Rust string used in
the "JSON path error near:" message, a quoted escaped form. -/
def rustDebug (s : String) : String := encJString s

/-- get_json_value of mod.rs: native value to Val. The Blob success arm
is todo!("jsonb to json conversion") in the source, a panic. -/
def get_json_value (ext : Ext) (json_value : OwnedValue) : RRes Val :=
  match json_value with
  | .Text t =>
    match ext.fromStr t.value with
    | .ok json => .ok json
    | .error _ => .err (.ParseError "malformed JSON")
  | .Blob b =>
    match ext.jsonbDecode b with
    | some _ => .panicked "not yet implemented"
    | none => .err (.ParseError "malformed JSON")
  | .Null => .ok .Null
  | .Float f => .ok (.Float f)
  | .Integer i => .ok (.Integer i)
  | v => .ok (.String (ext.dispOwned v))

/-- get_json of mod.rs: the SQL-facing normalizer. Text already tagged
Json is returned unchanged; Blob goes through the binary codec straight
to text; Null stays Null; everything else is decoded and re-encoded. -/
def get_json (ext : Ext) (json_value : OwnedValue) : RRes OwnedValue :=
  match json_value with
  | .Text t =>
    if t.subtype = TextSubtype.Json then
      .ok (.Text t)
    else
      RRes.bind (get_json_value ext (.Text t)) fun json_val =>
        RRes.bind (unwrapE (serToString ext json_val)) fun json =>
          .ok (.Text (Text.json json))
  | .Blob b =>
    match ext.jsonbDecode b with
    | some json => .ok (.Text (Text.json json))
    | none => .err (.ParseError "malformed JSON")
  | .Null => .ok .Null
  | v =>
    RRes.bind (get_json_value ext v) fun json_val =>
      RRes.bind (unwrapE (serToString ext json_val)) fun json =>
        .ok (.Text (Text.json json))

/-- One iteration body of the json_array loop of mod.rs: the rendering
of a single argument. The catch-all arm is unreachable!() in the source. -/
def json_array_item (ext : Ext) (value : OwnedValue) : RRes String :=
  match value with
  | .Blob _ => .err (.ConstraintError "JSON cannot hold BLOB values")
  | .Text t =>
    if t.subtype = TextSubtype.Json then
      .ok t.value
    else
      match serToStringStr t.value with
      | .ok json => .ok json
      | .error _ => .err (.ParseError "malformed JSON")
  | .Integer i =>
    match serToStringInt i with
    | .ok json => .ok json
    | .error _ => .err (.ParseError "malformed JSON")
  | .Float f =>
    match serToStringFloat ext f with
    | .ok json => .ok json
    | .error _ => .err (.ParseError "malformed JSON")
  | .Null => .ok "null"
  | .Other _ => .panicked "internal error: entered unreachable code"

/-- The json_array loop of mod.rs: each argument rendered in order,
a comma after every argument except the last. -/
def json_array_items (ext : Ext) : List OwnedValue → RRes String
  | [] => .ok ""
  | value :: rest =>
    RRes.bind (json_array_item ext value) fun s =>
      RRes.bind (json_array_items ext rest) fun r =>
        .ok (s ++ (if rest.isEmpty then "" else ",") ++ r)

/-- json_array of mod.rs: the rendered arguments between brackets,
returned as Text tagged Json. -/
def json_array (ext : Ext) (values : List OwnedValue) : RRes OwnedValue :=
  RRes.bind (json_array_items ext values) fun items =>
    .ok (.Text (Text.json ("[" ++ items ++ "]")))

/-- IndexMap::get on the ordered association list embedding. -/
def lookupObj : List (String × Val) → String → Option Val
  | [], _ => none
  | (k, v) :: rest, key => if k = key then some v else lookupObj rest key

/-- Embeds the "extracted == Val::Null" comparison of json_extract
(derived PartialEq against the Null variant holds exactly when the
value is the Null constructor). -/
def valIsNull : Val → Bool
  | .Null => true
  | _ => false

/-- Two's-complement wrap to the i32 range, for the "as i32" cast of the
array length and the wrapping i32 addition of the locator
normalization. -/
def wrap32 (x : Int) : Int := (x + 2 ^ 31) % 2 ^ 32 - 2 ^ 31

/-- The element loop of json_extract_single of mod.rs. Root resets the
current value to the document; Key descends into an object or
short-circuits to Null; ArrayLocator normalizes a negative index by the
i32 array length and descends or short-circuits to Null. When the
normalized index is still negative it passes the "idx < len" test and
the source indexes array[idx as usize]: the cast sign-extends the
negative i32 to a usize far above any Vec length (a Vec never holds
2^63 or more elements), so the access panics. -/
def evalElements (json : Val) : Val → List PathElement → RRes Val
  | current, [] => .ok current
  | _, .Root :: rest => evalElements json json rest
  | current, .Key key :: rest =>
    match current with
    | .Object map =>
      match lookupObj map key with
      | some value => evalElements json value rest
      | none => .ok .Null
    | _ => .ok .Null
  | current, .ArrayLocator idx :: rest =>
    match current with
    | .Array array =>
      let idx1 : Int :=
        if idx < 0 then wrap32 (idx + wrap32 array.length) else idx
      if idx1 < wrap32 array.length then
        if 0 ≤ idx1 then
          evalElements json (array.getD idx1.toNat Val.Null) rest
        else .panicked "index out of bounds"
      else .ok .Null
    | _ => .ok .Null

/-- json_extract_single of mod.rs: compile the path (propagating its
error), then run the element loop starting from the Null current
value. -/
def json_extract_single (ext : Ext) (json : Val) (path : String) : RRes Val :=
  match ext.jsonPath path with
  | .ok jp => evalElements json Val.Null jp.elements
  | .error e => .err e

/-- json_array_length of mod.rs: resolve the optional path argument
(Text, Integer and Float become a path string through their renderings;
everything else means no path), decode the subject, evaluate the path
when present, then classify. -/
def json_array_length (ext : Ext) (json_value : OwnedValue)
    (json_path_arg : Option OwnedValue) : RRes OwnedValue :=
  let path : Option String :=
    match json_path_arg with
    | some (.Text t) => some t.value
    | some (.Integer i) => some (toString i)
    | some (.Float f) => some (ext.dispFloat f)
    | _ => none
  RRes.bind (get_json_value ext json_value) fun json =>
    RRes.bind
      (match path with
       | some p => json_extract_single ext json p
       | none => .ok json) fun arr_val =>
      match arr_val with
      | .Array val => .ok (.Integer val.length)
      | .Null => .ok .Null
      | _ => .ok (.Integer 0)

/-- The path loop of json_extract of mod.rs, carrying the accumulated
result string. plen is the length of the whole path list. A Text path
is extracted; with a single path an extracted Null returns the overall
native Null (embedded as the none outcome), otherwise the encoding is
appended, with a trailing comma in multi-path mode. A Null path returns
the overall native Null. Any other path kind is a constraint error. -/
def json_extract_loop (ext : Ext) (json : Val) (plen : Nat) :
    String → List OwnedValue → RRes (Option String)
  | acc, [] => .ok (some acc)
  | acc, path :: rest =>
    match path with
    | .Text p =>
      RRes.bind (json_extract_single ext json p.value) fun extracted =>
        if plen = 1 && valIsNull extracted then .ok none
        else
          RRes.bind (unwrapE (serToString ext extracted)) fun enc =>
            json_extract_loop ext json plen
              (acc ++ enc ++ (if 1 < plen then "," else "")) rest
    | .Null => .ok none
    | other =>
      .err (.ConstraintError
        ("JSON path error near: " ++ rustDebug (ext.dispOwned other)))

/-- json_extract of mod.rs: Null subject or empty path list yield Null;
otherwise the subject is decoded and the path loop runs; in multi-path
mode the result opens with a bracket and the loop's final comma is
popped and closed with a bracket; the text result carries the Json
tag. -/
def json_extract (ext : Ext) (value : OwnedValue)
    (paths : List OwnedValue) : RRes OwnedValue :=
  if value.isNullVal then .ok .Null
  else if paths.length = 0 then .ok .Null
  else
    RRes.bind (get_json_value ext value) fun json =>
      RRes.bind
        (json_extract_loop ext json paths.length
          (if 1 < paths.length then "[" else "") paths) fun res =>
        match res with
        | none => .ok .Null
        | some result =>
          .ok (.Text (Text.json
            (if 1 < paths.length then result.dropRight 1 ++ "]"
             else result)))

/-- Modelled from the spec: a finite fragment of the Text Codec decoder
(module de is not under src/), faithful to the decode grammar on its
domain and rejecting everything else with ParseError("malformed JSON").
The theorems quantify over the decoder; this fragment only instantiates
them at concrete inputs. -/
def sampleFromStr (s : String) : Except JsonError Val :=
  if s = "[1,2,3,4]" then
    .ok (.Array [.Integer 1, .Integer 2, .Integer 3, .Integer 4])
  else if s = "\x7b\"a\":2\x7d" then
    .ok (.Object [("a", .Integer 2)])
  else
    .error (.ParseError "malformed JSON")

/-- Modelled from the spec: a finite fragment of the Path Parser
(module json_path is not under src/), faithful to the path grammar on
its domain: the root path, a dotted key step, and bracketed array
locators including negative ones. The theorems quantify over the
parser; this fragment only instantiates them at concrete inputs. -/
def samplePath (s : String) : Except JsonError JsonPath :=
  if s = "$" then .ok ⟨[.Root]⟩
  else if s = "$.a" then .ok ⟨[.Root, .Key "a"]⟩
  else if s = "$[2]" then .ok ⟨[.Root, .ArrayLocator 2]⟩
  else if s = "$[-5]" then .ok ⟨[.Root, .ArrayLocator (-5)]⟩
  else .error (.ParseError ("JSON path error near: " ++ rustDebug s))

/-- A concrete instantiation of the external interface record, used to
evaluate the quantified theorems at concrete inputs. The binary codec
rejects every blob; the float renderings are fixed strings, which is
sound because the theorems never constrain them. -/
def extSample : Ext where
  fromStr := sampleFromStr
  jsonPath := samplePath
  jsonbDecode := fun _ => none
  fmtFloat := fun _ => "1.1"
  dispFloat := fun _ => "1.1"
  dispOwned := fun _ => "1.1"

/-- The external interface record with a binary codec that accepts every
blob and decodes it to the text "1". -/
def extJsonbOk : Ext := { extSample with jsonbDecode := fun _ => some "1" }

/-- The classification table of json_array_length stated by the spec:
an array yields its element count, Null stays Null, everything else
yields zero. -/
def valClassify : Val → RRes OwnedValue
  | .Array val => .ok (.Integer val.length)
  | .Null => .ok .Null
  | _ => .ok (.Integer 0)

/-- Whether a Val is an Object. -/
def valIsObj : Val → Bool
  | .Object _ => true
  | _ => false

/-- Whether a Val is an Array. -/
def valIsArr : Val → Bool
  | .Array _ => true
  | _ => false

/-- Whether a native value is one of the five scalar kinds named by the
json_array claim: Null, Integer, Float, Text or Blob. -/
def OwnedValue.isScalarArg : OwnedValue → Bool
  | .Other _ => false
  | _ => true

@[simp]
theorem RRes.bind_ok_left {α β : Type} (a : α) (f : α → RRes β) :
    RRes.bind (.ok a) f = f a := rfl

@[simp]
theorem RRes.bind_err_left {α β : Type} (e : JsonError) (f : α → RRes β) :
    RRes.bind (.err e) f = .err e := rfl

@[simp]
theorem RRes.bind_panicked_left {α β : Type} (m : String) (f : α → RRes β) :
    RRes.bind (.panicked m) f = .panicked m := rfl

theorem RRes.bind_eq_ok {α β : Type} {x : RRes α} {f : α → RRes β} {r : β} :
    RRes.bind x f = .ok r ↔ ∃ a, x = .ok a ∧ f a = .ok r := by
  cases x <;> simp [RRes.bind]

@[simp]
theorem unwrapE_ok {α : Type} (a : α) :
    unwrapE (Except.ok a : Except JsonError α) = .ok a := rfl

theorem wrap32_eq_self {x : Int} (h0 : 0 ≤ x) (h1 : x < 2 ^ 31) :
    wrap32 x = x := by
  unfold wrap32
  rw [Int.emod_eq_of_lt (by omega) (by omega)]
  omega

/-- C1: the spec states that an ArrayLocator index that stays negative
after adding the array length yields Val::Null through the normal
return path. The code instead passes the bounds test (a negative i32 is
below the length) and indexes the Vec with the sign-extended usize cast
of the still-negative index, which is out of bounds: a panic, not
Null. Evaluated at the concrete failing input: document [1,2,3] and
path root followed by locator -5, where -5 + 3 = -2. -/
theorem C1_negative_index_panics :
    json_extract_single extSample
        (Val.Array [Val.Integer 1, Val.Integer 2, Val.Integer 3]) "$[-5]" =
      RRes.panicked "index out of bounds" := rfl

/-- C2: get_json applied to a native Text already tagged Json returns
the identical text still tagged Json, for every external-interface
instantiation (hence without decoding, re-encoding or validating) and
for every text, including text that is not valid JSON. -/
theorem C2_get_json_tagged_identity (ext : Ext) (t : Text)
    (h : t.subtype = TextSubtype.Json) :
    get_json ext (.Text t) = .ok (.Text t) := by
  simp [get_json, h]

theorem C2_witness :
    get_json extSample (.Text ⟨"not json", TextSubtype.Json⟩) =
      .ok (.Text ⟨"not json", TextSubtype.Json⟩) :=
  C2_get_json_tagged_identity extSample ⟨"not json", TextSubtype.Json⟩ rfl

/-- C4, amended: for every Blob input, get_json_value asks the external
binary codec to decode the bytes; when the codec fails the result is
ParseError("malformed JSON"), and when the codec succeeds the
conversion of the decoded value into a structured Val is unimplemented
in the source (a todo), so the call panics instead of yielding a
Value. -/
theorem C4_blob_behavior (ext : Ext) (b : List Nat) :
    get_json_value ext (.Blob b) =
      match ext.jsonbDecode b with
      | some _ => .panicked "not yet implemented"
      | none => .err (.ParseError "malformed JSON") := rfl

/-- C4 counterexample: with a binary codec that succeeds on the blob
[1], get_json_value panics on the unimplemented conversion rather than
yielding a structured Value, refuting the claim's success case. -/
theorem C4_blob_success_panics :
    get_json_value extJsonbOk (.Blob [1]) =
      RRes.panicked "not yet implemented" := rfl

/-- C3: every Ok result of get_json, json_array and json_extract that
is a native Text carries the Json subtype tag; the only untagged Ok
results are the native Null results of get_json and json_extract
(json_array never returns Null). -/
theorem C3_outputs_tagged (ext : Ext) :
    (∀ v r, get_json ext v = .ok r →
        (∃ s, r = OwnedValue.Text (Text.json s)) ∨ r = OwnedValue.Null) ∧
    (∀ args r, json_array ext args = .ok r →
        ∃ s, r = OwnedValue.Text (Text.json s)) ∧
    (∀ v ps r, json_extract ext v ps = .ok r →
        (∃ s, r = OwnedValue.Text (Text.json s)) ∨ r = OwnedValue.Null) := by
  refine ⟨?_, ?_, ?_⟩
  · intro v r h
    cases v with
    | Null =>
      simp [get_json] at h
      exact Or.inr h.symm
    | Text t =>
      by_cases hs : t.subtype = TextSubtype.Json
      · simp [get_json, hs] at h
        refine Or.inl ⟨t.value, ?_⟩
        cases t with
        | mk value subtype =>
          simp at hs
          simp [Text.json, hs, ← h]
      · cases hfs : ext.fromStr t.value with
        | ok j =>
          simp [get_json, hs, get_json_value, hfs, serToString] at h
          exact Or.inl ⟨encodeVal ext.fmtFloat j, h.symm⟩
        | error e =>
          simp [get_json, hs, get_json_value, hfs, RRes.bind] at h
    | Blob b =>
      cases hjb : ext.jsonbDecode b with
      | some s =>
        simp [get_json, hjb] at h
        exact Or.inl ⟨s, h.symm⟩
      | none =>
        simp [get_json, hjb] at h
    | Integer i =>
      simp [get_json, get_json_value, serToString] at h
      exact Or.inl ⟨_, h.symm⟩
    | Float f =>
      simp [get_json, get_json_value, serToString] at h
      exact Or.inl ⟨_, h.symm⟩
    | Other d =>
      simp [get_json, get_json_value, serToString] at h
      exact Or.inl ⟨_, h.symm⟩
  · intro args r h
    unfold json_array at h
    rw [RRes.bind_eq_ok] at h
    obtain ⟨items, -, h2⟩ := h
    simp at h2
    exact ⟨_, h2.symm⟩
  · intro v ps r h
    unfold json_extract at h
    by_cases hv : v.isNullVal
    · simp [hv] at h
      exact Or.inr h.symm
    · by_cases hp : ps.length = 0
      · simp [hv, hp] at h
        exact Or.inr h.symm
      · simp only [hv, hp, if_false, Bool.false_eq_true] at h
        rw [RRes.bind_eq_ok] at h
        obtain ⟨json, -, h2⟩ := h
        rw [RRes.bind_eq_ok] at h2
        obtain ⟨res, -, h3⟩ := h2
        cases res with
        | none =>
          simp at h3
          exact Or.inr h3.symm
        | some result =>
          simp at h3
          exact Or.inl ⟨_, h3.symm⟩

theorem C3_witness :
    (∃ s, OwnedValue.Text (Text.json "7") = OwnedValue.Text (Text.json s)) ∨
      OwnedValue.Text (Text.json "7") = OwnedValue.Null :=
  (C3_outputs_tagged extSample).1 (OwnedValue.Integer 7)
    (OwnedValue.Text (Text.json "7")) rfl

/-- The json_extract path loop returns the overall-Null outcome when the
path list is a run of successfully extracting Text paths followed by a
Null path, whatever comes after the Null. -/
theorem json_extract_loop_reaches_null (ext : Ext) (json : Val) (plen : Nat)
    (pre rest : List OwnedValue)
    (hpre : ∀ p ∈ pre, ∃ t w, p = OwnedValue.Text t ∧
        json_extract_single ext json t.value = .ok w) :
    ∀ acc, json_extract_loop ext json plen acc
        (pre ++ OwnedValue.Null :: rest) = .ok none := by
  induction pre with
  | nil => intro acc; rfl
  | cons p pre ih =>
    intro acc
    obtain ⟨t, w, rfl, hw⟩ := hpre _ (List.mem_cons_self _ _)
    have ih2 := ih fun q hq => hpre q (List.mem_cons_of_mem _ hq)
    by_cases h1 : (decide (plen = 1) && valIsNull w) = true
    · simp only [List.cons_append, json_extract_loop, hw, RRes.bind_ok_left, h1,
        if_true]
    · simp only [List.cons_append, json_extract_loop, hw, RRes.bind_ok_left]
      rw [if_neg h1]
      simp [serToString, ih2]

/-- C5 counterexample: subject 7 with path list [1.1, NULL]: the claim
demands native Null regardless of the other path arguments, but the
loop reaches the Float argument first and fails with
ConstraintError("JSON path error near: ..."), not Null. -/
theorem C5_counterexample :
    json_extract extSample (.Integer 7) [.Float ⟨0⟩, .Null] ≠
      .ok OwnedValue.Null := by decide

/-- C5, amended: for a json_extract call with a non-Null subject that
decodes, if some path argument is native Null and every path argument
before it is a Text whose extraction succeeds, the overall result is
native Null, regardless of the types and values of the path arguments
after the Null. -/
theorem C5_null_path_short_circuit (ext : Ext) (v : OwnedValue) (j : Val)
    (pre rest : List OwnedValue)
    (hv : v.isNullVal = false)
    (hj : get_json_value ext v = .ok j)
    (hpre : ∀ p ∈ pre, ∃ t w, p = OwnedValue.Text t ∧
        json_extract_single ext j t.value = .ok w) :
    json_extract ext v (pre ++ OwnedValue.Null :: rest) =
      .ok OwnedValue.Null := by
  have hlen : ¬((pre ++ OwnedValue.Null :: rest).length = 0) := by simp
  simp [json_extract, hv, hlen, hj,
    json_extract_loop_reaches_null ext j _ pre rest hpre]

theorem C5_witness :
    json_extract extSample (.Integer 7)
      ([OwnedValue.Text ⟨"$", TextSubtype.Text⟩] ++
        OwnedValue.Null :: [OwnedValue.Float ⟨0⟩]) =
      .ok OwnedValue.Null :=
  C5_null_path_short_circuit extSample (.Integer 7) (Val.Integer 7)
    [OwnedValue.Text ⟨"$", TextSubtype.Text⟩] [OwnedValue.Float ⟨0⟩]
    rfl rfl (by
      intro p hp
      simp only [List.mem_singleton] at hp
      subst hp
      exact ⟨⟨"$", TextSubtype.Text⟩, Val.Integer 7, rfl, rfl⟩)

/-- C6: json_extract with a non-Null subject that decodes and exactly
one Text path whose extraction succeeds: an extracted Val.Null becomes
the native Null result (not the text "null"), and any other extracted
value becomes its canonical encoding as native Text tagged Json. -/
theorem C6_single_path (ext : Ext) (v : OwnedValue) (j : Val) (t : Text)
    (w : Val)
    (hv : v.isNullVal = false)
    (hj : get_json_value ext v = .ok j)
    (hw : json_extract_single ext j t.value = .ok w) :
    json_extract ext v [.Text t] =
      if valIsNull w then .ok OwnedValue.Null
      else .ok (.Text (Text.json (encodeVal ext.fmtFloat w))) := by
  cases hnull : valIsNull w
  · simp [json_extract, hv, hj, json_extract_loop, hw, hnull, serToString,
      String.empty_append, String.append_empty]
  · simp [json_extract, hv, hj, json_extract_loop, hw, hnull]

theorem C6_witness :
    json_extract extSample (.Integer 7)
        [.Text ⟨"$", TextSubtype.Text⟩] =
      if valIsNull (Val.Integer 7) then .ok OwnedValue.Null
      else .ok (.Text (Text.json
        (encodeVal extSample.fmtFloat (Val.Integer 7)))) :=
  C6_single_path extSample (.Integer 7) (Val.Integer 7)
    ⟨"$", TextSubtype.Text⟩ (Val.Integer 7) rfl rfl rfl

/-- C7 counterexample: the claim quantifies over every array of length
n ≥ 1, but on an array of length 2^31 (a realizable Vec on 64-bit
hardware) the "array.len() as i32" cast wraps to -2^31, so locator -1
does not descend to the element at position n - 1: the wrapped
normalization gives index 2^31 - 1, the "idx < len" test against the
wrapped length fails, and evaluation returns Null although the element
at position n - 1 exists (here the integer 7, so descending would have
continued from it, not from Null). -/
theorem C7_counterexample :
    1 ≤ (List.replicate (2 ^ 31) (Val.Integer 7)).length ∧
    -(((List.replicate (2 ^ 31) (Val.Integer 7)).length : Int)) ≤ -1 ∧
    evalElements Val.Null
        (Val.Array (List.replicate (2 ^ 31) (Val.Integer 7)))
        [PathElement.ArrayLocator (-1)] ≠
      evalElements Val.Null
        ((List.replicate (2 ^ 31) (Val.Integer 7)).getD
          ((-1 +
            ((List.replicate (2 ^ 31) (Val.Integer 7)).length : Int)).toNat)
          Val.Null) [] := by
  have hlen : (List.replicate (2 ^ 31) (Val.Integer 7)).length = 2 ^ 31 :=
    List.length_replicate _ _
  have h1 : wrap32 (((2 ^ 31 : Nat) : Int)) = -(2 ^ 31) := by decide
  have h2 : wrap32 (-1 + -(2 ^ 31)) = 2 ^ 31 - 1 := by decide
  have hL : evalElements Val.Null
      (Val.Array (List.replicate (2 ^ 31) (Val.Integer 7)))
      [PathElement.ArrayLocator (-1)] = .ok Val.Null := by
    simp only [evalElements, hlen, h1, h2]
    norm_num
  have hidx : ((-1 : Int) +
      ((List.replicate (2 ^ 31) (Val.Integer 7)).length : Int)).toNat =
      2 ^ 31 - 1 := by
    rw [hlen]
    decide
  have hget : (List.replicate (2 ^ 31) (Val.Integer 7)).getD
      ((-1 +
        ((List.replicate (2 ^ 31) (Val.Integer 7)).length : Int)).toNat)
      Val.Null = Val.Integer 7 := by
    rw [hidx, List.getD_eq_getElem?_getD, List.getElem?_replicate]
    norm_num
  refine ⟨by rw [hlen]; norm_num, by rw [hlen]; norm_num, ?_⟩
  rw [hL, hget]
  simp [evalElements]

/-- C7, amended: on an array of length n with 1 ≤ n < 2^31 (so that
the i32 cast of the Vec length in the source is exact), an ArrayLocator
whose index i satisfies -n ≤ i ≤ -1 descends to the element at
position n + i and evaluation continues there; in particular locator
-1 reaches position n-1 and locator -n reaches position 0. The length
bound is necessary: at length 2^31 the cast wraps and locator -1
yields Null instead. -/
theorem C7_negative_locator_wraps (json : Val) (arr : List Val) (i : Int)
    (rest : List PathElement)
    (hn : 1 ≤ arr.length) (hlen : (arr.length : Int) < 2 ^ 31)
    (hi1 : -(arr.length : Int) ≤ i) (hi2 : i ≤ -1) :
    evalElements json (Val.Array arr)
        (PathElement.ArrayLocator i :: rest) =
      evalElements json (arr.getD (i + arr.length).toNat Val.Null) rest := by
  have hlw : wrap32 arr.length = arr.length :=
    wrap32_eq_self (by omega) hlen
  have hidx : wrap32 (i + arr.length) = i + arr.length :=
    wrap32_eq_self (by omega) (by omega)
  have h0 : i < 0 := by omega
  have h2 : i + (arr.length : Int) < (arr.length : Int) := by omega
  have h3 : (0 : Int) ≤ i + arr.length := by omega
  simp [evalElements, hlw, hidx, h0, h2, h3]

theorem C7_witness :
    (1 ≤ [Val.Integer 10, Val.Integer 20, Val.Integer 30].length ∧
      (([Val.Integer 10, Val.Integer 20, Val.Integer 30].length : Int) <
        2 ^ 31) ∧
      -(([Val.Integer 10, Val.Integer 20, Val.Integer 30].length : Int)) ≤
        (-3 : Int) ∧ (-3 : Int) ≤ -1) ∧
    evalElements Val.Null
        (Val.Array [Val.Integer 10, Val.Integer 20, Val.Integer 30])
        [PathElement.ArrayLocator (-3)] =
      evalElements Val.Null
        ([Val.Integer 10, Val.Integer 20, Val.Integer 30].getD
          ((-3 : Int) +
            ([Val.Integer 10, Val.Integer 20, Val.Integer 30].length :
              Int)).toNat Val.Null) [] :=
  ⟨⟨by decide, by decide, by decide, by decide⟩,
    C7_negative_locator_wraps Val.Null
      [Val.Integer 10, Val.Integer 20, Val.Integer 30] (-3) []
      (by decide) (by decide) (by decide) (by decide)⟩

/-- C8: a miss anywhere along a path is a result, not an error: a Key
step on an object lacking that key, a Key step on a non-object, and an
ArrayLocator step on a non-array each stop evaluation and return
Val.Null through the normal return path, whatever steps remain. -/
theorem C8_miss_is_null (json cur : Val) :
    (∀ m k rest, lookupObj m k = none →
        evalElements json (Val.Object m) (PathElement.Key k :: rest) =
          .ok Val.Null) ∧
    (∀ k rest, valIsObj cur = false →
        evalElements json cur (PathElement.Key k :: rest) = .ok Val.Null) ∧
    (∀ i rest, valIsArr cur = false →
        evalElements json cur (PathElement.ArrayLocator i :: rest) =
          .ok Val.Null) := by
  refine ⟨?_, ?_, ?_⟩
  · intro m k rest h
    simp [evalElements, h]
  · intro k rest h
    cases cur <;> simp_all [evalElements, valIsObj]
  · intro i rest h
    cases cur <;> simp_all [evalElements, valIsArr]

theorem C8_witness :
    evalElements Val.Null (Val.Object [("a", Val.Integer 1)])
        [PathElement.Key "b"] = .ok Val.Null ∧
    evalElements Val.Null (Val.Integer 5) [PathElement.Key "a"] =
      .ok Val.Null ∧
    evalElements Val.Null (Val.Integer 5) [PathElement.ArrayLocator 0] =
      .ok Val.Null :=
  ⟨(C8_miss_is_null Val.Null (Val.Integer 5)).1 [("a", Val.Integer 1)]
      "b" [] rfl,
    (C8_miss_is_null Val.Null (Val.Integer 5)).2.1 "a" [] rfl,
    (C8_miss_is_null Val.Null (Val.Integer 5)).2.2 0 [] rfl⟩

/-- C9: json_array_length on a subject that decodes classifies the
resolved value by the spec's table: the whole document when the path
argument is absent, Null, a Blob or any other non-path kind, and the
path target when the path argument is a Text, an Integer or a Float
whose rendered path extracts successfully. -/
theorem C9_array_length_classifies (ext : Ext) (v : OwnedValue) (j : Val)
    (hj : get_json_value ext v = .ok j) :
    (json_array_length ext v none = valClassify j) ∧
    (json_array_length ext v (some OwnedValue.Null) = valClassify j) ∧
    (∀ b, json_array_length ext v (some (OwnedValue.Blob b)) =
        valClassify j) ∧
    (∀ d, json_array_length ext v (some (OwnedValue.Other d)) =
        valClassify j) ∧
    (∀ t w, json_extract_single ext j t.value = .ok w →
        json_array_length ext v (some (OwnedValue.Text t)) =
          valClassify w) ∧
    (∀ i w, json_extract_single ext j (toString i) = .ok w →
        json_array_length ext v (some (OwnedValue.Integer i)) =
          valClassify w) ∧
    (∀ f w, json_extract_single ext j (ext.dispFloat f) = .ok w →
        json_array_length ext v (some (OwnedValue.Float f)) =
          valClassify w) := by
  refine ⟨?_, ?_, ?_, ?_, ?_, ?_, ?_⟩
  · cases j <;> simp [json_array_length, hj, valClassify]
  · cases j <;> simp [json_array_length, hj, valClassify]
  · intro b
    cases j <;> simp [json_array_length, hj, valClassify]
  · intro d
    cases j <;> simp [json_array_length, hj, valClassify]
  · intro t w hw
    cases w <;> simp [json_array_length, hj, hw, valClassify]
  · intro i w hw
    cases w <;> simp [json_array_length, hj, hw, valClassify]
  · intro f w hw
    cases w <;> simp [json_array_length, hj, hw, valClassify]

theorem C9_witness :
    json_array_length extSample
        (.Text ⟨"[1,2,3,4]", TextSubtype.Text⟩) none =
      valClassify (Val.Array
        [Val.Integer 1, Val.Integer 2, Val.Integer 3, Val.Integer 4]) :=
  (C9_array_length_classifies extSample
    (.Text ⟨"[1,2,3,4]", TextSubtype.Text⟩)
    (Val.Array [Val.Integer 1, Val.Integer 2, Val.Integer 3,
      Val.Integer 4]) rfl).1

/-- A non-Blob argument of one of the five scalar kinds always renders
to an Ok string in the json_array loop. -/
theorem json_array_item_ok (ext : Ext) (v : OwnedValue)
    (hs : v.isScalarArg = true) (hb : v.isBlobVal = false) :
    ∃ s, json_array_item ext v = .ok s := by
  cases v with
  | Null => exact ⟨"null", rfl⟩
  | Integer i => exact ⟨toString i, rfl⟩
  | Float f => exact ⟨ext.fmtFloat f, rfl⟩
  | Text t =>
    by_cases hsub : t.subtype = TextSubtype.Json
    · exact ⟨t.value, by simp [json_array_item, hsub]⟩
    · exact ⟨encJString t.value,
        by simp [json_array_item, hsub, serToStringStr]⟩
  | Blob b => simp [OwnedValue.isBlobVal] at hb
  | Other d => simp [OwnedValue.isScalarArg] at hs

/-- A Blob-free argument list of the five scalar kinds renders to an Ok
joined string. -/
theorem json_array_items_ok (ext : Ext) (values : List OwnedValue)
    (h : ∀ x ∈ values, x.isScalarArg = true ∧ x.isBlobVal = false) :
    ∃ s, json_array_items ext values = .ok s := by
  induction values with
  | nil => exact ⟨"", rfl⟩
  | cons v rest ih =>
    obtain ⟨s, hs⟩ := json_array_item_ok ext v
      (h v (List.mem_cons_self _ _)).1 (h v (List.mem_cons_self _ _)).2
    obtain ⟨r, hr⟩ := ih fun x hx => h x (List.mem_cons_of_mem _ hx)
    refine ⟨s ++ (if rest.isEmpty then "" else ",") ++ r, ?_⟩
    simp [json_array_items, hs, hr]

/-- An argument list of the five scalar kinds containing a Blob makes
the json_array loop fail with the BLOB constraint error. -/
theorem json_array_items_blob (ext : Ext) (values : List OwnedValue)
    (hall : ∀ x ∈ values, x.isScalarArg = true)
    (hex : ∃ x ∈ values, x.isBlobVal = true) :
    json_array_items ext values =
      .err (.ConstraintError "JSON cannot hold BLOB values") := by
  induction values with
  | nil => simp at hex
  | cons v rest ih =>
    by_cases hv : v.isBlobVal = true
    · cases v <;> simp_all [OwnedValue.isBlobVal]
      simp [json_array_items, json_array_item]
    · obtain ⟨x, hx, hxb⟩ := hex
      rcases List.mem_cons.mp hx with rfl | hxr
      · exact absurd hxb hv
      · obtain ⟨s, hs⟩ := json_array_item_ok ext v
          (hall v (List.mem_cons_self _ _))
          (by simpa using hv)
        have := ih (fun y hy => hall y (List.mem_cons_of_mem _ hy))
          ⟨x, hxr, hxb⟩
        simp [json_array_items, hs, this]

/-- C10: spec-modelled serializer contract (encoding a string, an i64
or an f64 never fails): for an argument list of the five scalar kinds,
json_array never returns a ParseError; it returns Text tagged Json when
no argument is a Blob, and ConstraintError("JSON cannot hold BLOB
values") when some argument is a Blob. -/
theorem C10_json_array_totality (ext : Ext) (values : List OwnedValue)
    (h : ∀ x ∈ values, x.isScalarArg = true) :
    ((∀ x ∈ values, x.isBlobVal = false) →
        ∃ s, json_array ext values = .ok (.Text (Text.json s))) ∧
    ((∃ x ∈ values, x.isBlobVal = true) →
        json_array ext values =
          .err (.ConstraintError "JSON cannot hold BLOB values")) ∧
    (∀ m, json_array ext values ≠ .err (.ParseError m)) := by
  refine ⟨?_, ?_, ?_⟩
  · intro hnb
    obtain ⟨s, hs⟩ := json_array_items_ok ext values
      fun x hx => ⟨h x hx, hnb x hx⟩
    exact ⟨"[" ++ s ++ "]", by simp [json_array, hs]⟩
  · intro hex
    simp [json_array, json_array_items_blob ext values h hex]
  · intro m hcontra
    by_cases hex : ∃ x ∈ values, x.isBlobVal = true
    · rw [json_array, json_array_items_blob ext values h hex] at hcontra
      simp [RRes.bind] at hcontra
    · have hnb : ∀ x ∈ values, x.isBlobVal = false := by
        intro x hx
        by_contra hb
        exact hex ⟨x, hx, by simpa using hb⟩
      obtain ⟨s, hs⟩ := json_array_items_ok ext values
        fun x hx => ⟨h x hx, hnb x hx⟩
      rw [json_array, hs] at hcontra
      simp [RRes.bind] at hcontra

theorem C10_witness :
    (∃ s, json_array extSample [OwnedValue.Null, OwnedValue.Integer 1] =
        .ok (.Text (Text.json s))) ∧
    json_array extSample [OwnedValue.Blob [1]] =
      .err (.ConstraintError "JSON cannot hold BLOB values") :=
  ⟨(C10_json_array_totality extSample
      [OwnedValue.Null, OwnedValue.Integer 1] (by decide)).1 (by decide),
    (C10_json_array_totality extSample [OwnedValue.Blob [1]]
      (by decide)).2.1 (by decide)⟩

end LimboJson
